import Mathlib

/-!
Shallow embedding of `src/dist/static/js/idw.js` (IDW spatial interpolation).

Modelling conventions:
* JS numbers are embedded as `ℚ` (exact arithmetic).  In `ℚ`, division by
  zero yields `0`; where a claim depends on a division by zero this is
  stated explicitly in the corresponding theorem's doc comment.
* The external turf calls (`bbox`, the four grid constructors, `distance`,
  `centroid`, `clone`) are given libraries per §6 of the specification.
  `distance(gridPoint, point, options)` composed with the representative
  location choice (`gridFeature` itself for a point lattice, its centroid
  otherwise) is abstracted as a caller-supplied function `Pt → Pt → ℚ`;
  the grid built by the turf grid constructors is a caller-supplied list.
* A feature's JS `properties` object is split into a numeric attribute map
  (`props`) and a string attribute map (`sprops`, receiving the fill
  color).  The claims never mix the two namespaces.
* `Math.ceil` is `Int.ceil`, `Math.abs` is `|·|`, `Math.pow` with the
  integer-valued weight exponent is `zpow`.
* Exceptions are `Except String`; the thrown message is kept.
-/

namespace IDW

/-- A feature (input sample point or grid cell): numeric attributes,
string attributes, and geometry coordinates (`coords.get? 2` is the
third coordinate used as the z-value fallback). -/
structure Pt where
  props : List (String × ℚ)
  sprops : List (String × String)
  coords : List ℚ
deriving DecidableEq

/-- One entry of the `breakProperties` classification table; only its
`fillcolor` field is read by the source. -/
structure BreakProp where
  fillcolor : String
deriving DecidableEq

/-- The recognized options of `interpolate` / `interpolate2`.
`gridType`, `units` and the turf pass-through options only influence the
external grid construction and distance computation, which are abstracted
away (see the module doc); `breaks` is read but never used by the source. -/
structure Options where
  property : Option String
  weight : Option ℤ
  breakProperties : List BreakProp
  colorProperty : String
  valid : ℚ
deriving DecidableEq

/-- Message of the `MissingValueError` thrown at idw.js:94 and idw.js:158. -/
def msgMissingValue : String := "zValue is missing"

/-- Message of the fault at idw.js:114 when `breakProperties[order]` is
`undefined` and its `fillcolor` field is read. -/
def msgBadFillcolor : String := "Cannot read properties of undefined"

/-- Message of the fault inside the external turf `bbox` when the point
collection argument is absent. -/
def msgUnknownGeometry : String := "Unknown Geometry Type"

/-- The default property name (idw.js:56). -/
def defaultPropertyName : String := "elevation"

/-- JS object property read `obj[k]` on an association list. -/
def getVal : List (String × α) → String → Option α
  | [], _ => none
  | (k', v) :: t, k => if k' = k then some v else getVal t k

/-- JS object property write `obj[k] = v` on an association list. -/
def setVal : List (String × α) → String → α → List (String × α)
  | [], k, v => [(k, v)]
  | (k', v') :: t, k, v => if k' = k then (k, v) :: t else (k', v') :: setVal t k v

/-- `newFeature.properties[property] = value` (numeric attribute). -/
def setProp (f : Pt) (k : String) (v : ℚ) : Pt :=
  { f with props := setVal f.props k v }

/-- `newFeature.properties[colorProperty] = fillcolor` (string attribute). -/
def setSProp (f : Pt) (k : String) (v : String) : Pt :=
  { f with sprops := setVal f.sprops k v }

/-- JS `property || 'elevation'` defaulting (idw.js:56): `undefined` and
the empty string are falsy. -/
def orDefaultS (o : Option String) (d : String) : String :=
  match o with
  | none => d
  | some s => if s = "" then d else s

/-- JS `weight || 1` defaulting (idw.js:58): `undefined` and `0` are falsy. -/
def orDefaultW (o : Option ℤ) : ℤ :=
  match o with
  | none => 1
  | some w => if w = 0 then 1 else w

/-- Resolution of a sample's z-value (idw.js:90-93): the named property has
priority, falling back to the third geometry coordinate; `none` means
both are absent (the `MissingValueError` case). -/
def zValueOf (property : String) (p : Pt) : Option ℚ :=
  match getVal p.props property with
  | some v => some v
  | none => p.coords.get? 2

/-- JS array read `arr[i]` with a possibly negative or out-of-range index:
`breakProperties[order]` (idw.js:114 and idw.js:254). -/
def jsIndex (l : List α) (i : ℤ) : Option α :=
  if 0 ≤ i then l.get? i.toNat else none

/-- The accumulation loop body of `interpolate` (idw.js:87-100), folded
over the sample points with accumulator `(zw, sw)`. -/
def accumPointsU (P : String) (W : ℤ) (d : Pt → ℚ) :
    List Pt → ℚ × ℚ → Except String (ℚ × ℚ)
  | [], acc => .ok acc
  | q :: l, acc =>
    match zValueOf P q with
    | none => .error msgMissingValue
    | some z =>
      let dq := d q
      let zw := if dq = 0 then z else acc.1
      let w : ℚ := 1 / dq ^ W
      accumPointsU P W d l (zw + w * z, acc.2 + w)

/-- The accumulation loop body of `interpolate2` (idw.js:152-166): the
z-value is resolved first (possibly throwing), then the sample only
contributes when `|zValue| < options.valid`. -/
def accumPoints (P : String) (W : ℤ) (valid : ℚ) (d : Pt → ℚ) :
    List Pt → ℚ × ℚ → Except String (ℚ × ℚ)
  | [], acc => .ok acc
  | q :: l, acc =>
    match zValueOf P q with
    | none => .error msgMissingValue
    | some z =>
      if |z| < valid then
        let dq := d q
        let zw := if dq = 0 then z else acc.1
        let w : ℚ := 1 / dq ^ W
        accumPoints P W valid d l (zw + w * z, acc.2 + w)
      else accumPoints P W valid d l acc

/-- The bucket-index rule of `interpolate` (idw.js:108-113). -/
def interpOrder (v : ℚ) : ℤ :=
  if v < 0 then 15 - ⌈|v| / 2⌉ else ⌈v / 2⌉ + 14

/-- The `tem` branch of `interpolate2` (idw.js:175-180). -/
def temOrder (v : ℚ) : ℤ :=
  if v < 0 then 15 - ⌈|v| / 2⌉ else ⌈v / 2⌉ + 14

/-- The `prs` branch of `interpolate2` (idw.js:181-188). -/
def prsOrder (v : ℚ) : ℤ :=
  if v < 969 then 0
  else if v > 1017 then 16
  else ⌈(v - 969) / 3⌉ - 1

/-- The `rhu` branch of `interpolate2` (idw.js:189-196). -/
def rhuOrder (v : ℚ) : ℤ :=
  if v ≤ 0 then 0
  else if v > 100 then 9
  else ⌈v / 10⌉ - 1

/-- The `winSMax` branch of `interpolate2` (idw.js:197-232), including the
duplicated `<= 5.5` test. -/
def winSMaxOrder (v : ℚ) : ℤ :=
  if v ≤ 2.5 then 0
  else if v ≤ 5.5 then 1
  else if v ≤ 5.5 then 2
  else if v ≤ 8.3 then 3
  else if v ≤ 11.1 then 4
  else if v ≤ 13.9 then 5
  else if v ≤ 17.4 then 6
  else if v ≤ 20.9 then 7
  else if v ≤ 24.5 then 8
  else if v ≤ 29 then 9
  else if v ≤ 33 then 10
  else if v ≤ 37 then 11
  else if v ≤ 42 then 12
  else if v ≤ 47 then 13
  else if v ≤ 51 then 14
  else if v ≤ 67 then 15
  else 16

/-- The `pre1h` branch of `interpolate2` (idw.js:233-252). -/
def pre1hOrder (v : ℚ) : ℤ :=
  if v ≤ 0.2 then 0
  else if v ≤ 2 then 1
  else if v ≤ 4 then 2
  else if v ≤ 6 then 3
  else if v ≤ 8 then 4
  else if v ≤ 10 then 5
  else if v ≤ 20 then 6
  else if v ≤ 50 then 7
  else 8

/-- The scheme dispatch of `interpolate2` (idw.js:174-253): `order` starts
at 0 and an unrecognized property name leaves it 0. -/
def orderOf (property : String) (v : ℚ) : ℤ :=
  if property = "tem" then temOrder v
  else if property = "prs" then prsOrder v
  else if property = "rhu" then rhuOrder v
  else if property = "winSMax" then winSMaxOrder v
  else if property = "pre1h" then pre1hOrder v
  else 0

/-- `featureEach` plus `results.push` plus a thrown exception aborting the
whole call: monadic map over the grid features. -/
def mapExcept (f : α → Except String β) : List α → Except String (List β)
  | [] => .ok []
  | a :: l =>
    match f a with
    | .error e => .error e
    | .ok b =>
      match mapExcept f l with
      | .error e => .error e
      | .ok bs => .ok (b :: bs)

/-- The per-cell body of `interpolate` (idw.js:83-116): accumulate over all
samples, write `zw / sw` under the property name, classify with the fixed
two-branch rule, and read `breakProperties[order].fillcolor` — a table
miss faults (the JS undefined-property read), aborting the call. -/
def interpCell (P : String) (W : ℤ) (opts : Options) (d : Pt → ℚ)
    (points : List Pt) (g : Pt) : Except String Pt :=
  match accumPointsU P W d points (0, 0) with
  | .error e => .error e
  | .ok acc =>
    let value := acc.1 / acc.2
    let newFeature := setProp g P value
    let order := interpOrder value
    match jsIndex opts.breakProperties order with
    | some bp => .ok (setSProp newFeature opts.colorProperty bp.fillcolor)
    | none => .error msgBadFillcolor

/-- The per-cell body of `interpolate2` (idw.js:148-258): filtered
accumulation, scheme-dispatched classification, and a guarded table read —
a miss skips the color assignment instead of faulting (idw.js:254-256). -/
def interp2Cell (P : String) (W : ℤ) (opts : Options) (d : Pt → ℚ)
    (points : List Pt) (g : Pt) : Except String Pt :=
  match accumPoints P W opts.valid d points (0, 0) with
  | .error e => .error e
  | .ok acc =>
    let value := acc.1 / acc.2
    let newFeature := setProp g P value
    let order := orderOf P value
    match jsIndex opts.breakProperties order with
    | some bp => .ok (setSProp newFeature opts.colorProperty bp.fillcolor)
    | none => .ok newFeature

/-- `interpolate` (idw.js:38-118).  The turf-built grid and the composed
representative-location/distance computation are abstracted as arguments
(`grid`, `dist`); the argument validations that are enforced by the Lean
types (non-null collections, numeric weight, Point geometry, recognized
gridType) are omitted. -/
def interpolate (points grid : List Pt) (dist : Pt → Pt → ℚ)
    (opts : Options) : Except String (List Pt) :=
  let P := orDefaultS opts.property defaultPropertyName
  let W := orDefaultW opts.weight
  mapExcept (fun g => interpCell P W opts (dist g) points g) grid

/-- `interpolate2` (idw.js:125-261), operating on the caller-supplied grid. -/
def interpolate2 (points grid : List Pt) (dist : Pt → Pt → ℚ)
    (opts : Options) : Except String (List Pt) :=
  let P := orDefaultS opts.property defaultPropertyName
  let W := orDefaultW opts.weight
  mapExcept (fun g => interp2Cell P W opts (dist g) points g) grid

/-- Modelled from the spec: the external `@turf/bbox` (a given library per
§6, not part of this repository).  An absent collection faults inside the
library; an empty collection leaves the JS min/max fold at its initial
`[Infinity, Infinity, -Infinity, -Infinity]` box, represented here as
`none`; otherwise the fold tightens the box over every point. -/
def bboxModel : Option (List Pt) → Except String (Option (ℚ × ℚ × ℚ × ℚ))
  | none => .error msgUnknownGeometry
  | some pts =>
    .ok (pts.foldl
      (fun acc p =>
        let x := p.coords.getD 0 0
        let y := p.coords.getD 1 0
        match acc with
        | none => some (x, y, x, y)
        | some (w, s, e, n) => some (min w x, min s y, max e x, max n y))
      none)

/-- Modelled from the spec: the external `@turf/square-grid` (a given
library per §6).  Over the degenerate infinite box of an empty input the
JS loop bounds are non-finite and no cells are produced; over a real box
it tiles the box with square cells (represented by their southwest
corners, which is all the claims need). -/
def squareGridModel (box : Option (ℚ × ℚ × ℚ × ℚ)) (cellSize : ℚ)
    (_ : Options) : Except String (List Pt) :=
  match box with
  | none => .ok []
  | some (w, s, e, n) =>
    if 0 < cellSize then
      let cols := ((e - w) / cellSize).floor.toNat
      let rows := ((n - s) / cellSize).floor.toNat
      .ok ((List.range cols).flatMap fun i =>
        (List.range rows).map fun j =>
          ⟨[], [], [w + i * cellSize, s + j * cellSize]⟩)
    else .ok []

/-- `genSquareGrid` (idw.js:119-124): no validation of its own, a plain
delegation to the external `bbox` and `squareGrid` calls, taken as
arguments. -/
def genSquareGrid
    (bboxE : Option (List Pt) → Except String (Option (ℚ × ℚ × ℚ × ℚ)))
    (squareGridE : Option (ℚ × ℚ × ℚ × ℚ) → ℚ → Options → Except String (List Pt))
    (points : Option (List Pt)) (cellSize : ℚ) (options : Options) :
    Except String (List Pt) :=
  match bboxE points with
  | .error e => .error e
  | .ok box => squareGridE box cellSize options

/-- Total weight `Σ 1/d^W` of a sample list (specification-side helper for
stating the accumulator lemmas). -/
def swSum (W : ℤ) (d : Pt → ℚ) (l : List Pt) : ℚ :=
  (l.map fun q => 1 / d q ^ W).sum

/-- Weighted value sum `Σ (1/d^W) · z` of a sample list. -/
def zwSum (P : String) (W : ℤ) (d : Pt → ℚ) (l : List Pt) : ℚ :=
  (l.map fun q => (1 / d q ^ W) * ((zValueOf P q).getD 0)).sum

/-- Concrete sample point for exercising claim C1: one sample with value 10. -/
def pt1 : Pt := ⟨[("elevation", 10)], [], []⟩

/-- Concrete grid cell fixture for claim C1. -/
def gd1 : Pt := ⟨[], [], []⟩

/-- Concrete distance fixture for claim C1: all distances 1. -/
def dist1 : Pt → Pt → ℚ := fun _ _ => 1

/-- Concrete options fixture for claim C1: defaults plus a 20-entry table. -/
def opts1 : Options := ⟨none, none, List.replicate 20 (⟨("c1")⟩ : BreakProp), "color", 0⟩

/-- Expected output of `interpolate` on the C1 fixture. -/
def out1 : List Pt := [⟨[("elevation", 10)], [("color", "c1")], []⟩]

/-- Concrete passing sample for claim C2 (|5| < 10). -/
def ptGood2 : Pt := ⟨[("e2", 5)], [], []⟩

/-- Concrete filtered sample for claim C2 (|100| is not < 10). -/
def ptBad2 : Pt := ⟨[("e2", 100)], [], []⟩

/-- Concrete grid cell fixture for claim C2. -/
def gd2 : Pt := ⟨[], [], []⟩

/-- Concrete distance fixture for claim C2. -/
def dist2 : Pt → Pt → ℚ := fun _ _ => 1

/-- Concrete options fixture for claim C2 with validity threshold 10. -/
def opts2 : Options := ⟨some ("e2"), none, [], "col2", 10⟩

/-- Concrete coincident sample for claim C4 (value 5, distance 0). -/
def p4a : Pt := ⟨[("e4", 5)], [], []⟩

/-- Concrete non-coincident sample for claim C4 (value 7, distance 1). -/
def p4b : Pt := ⟨[("e4", 7)], [], []⟩

/-- Concrete grid cell fixture for claim C4. -/
def g4 : Pt := ⟨[], [], []⟩

/-- Concrete distance fixture for claim C4: zero exactly at the sample of
value 5, one elsewhere. -/
def dist4 : Pt → Pt → ℚ := fun _ q => if getVal q.props ("e4") = some 5 then 0 else 1

/-- Concrete options fixture for claim C4 with a 21-entry table. -/
def opts4 : Options := ⟨some ("e4"), none, List.replicate 21 (⟨("c4")⟩ : BreakProp), "col4", 0⟩

/-- Output of `interpolate` on the C4 fixture: the coincident cell gets 12,
not the coincident sample's 5. -/
def out4 : List Pt := [⟨[("e4", 12)], [("col4", "c4")], []⟩]

/-- Concrete sample with no named property and no third coordinate (C5). -/
def pBad5 : Pt := ⟨[], [], []⟩

/-- Concrete grid cell fixture for claim C5. -/
def gd5 : Pt := ⟨[], [], []⟩

/-- Concrete distance fixture for claim C5. -/
def dist5 : Pt → Pt → ℚ := fun _ _ => 1

/-- Concrete options fixture for claim C5. -/
def opts5 : Options := ⟨some ("e5"), none, [], "col5", 10⟩

/-- Concrete sample fixture for claim C7. -/
def p7 : Pt := ⟨[("pz7", 5)], [], []⟩

/-- Concrete grid cell fixture for claim C7. -/
def g7 : Pt := ⟨[], [], []⟩

/-- Concrete distance fixture for claim C7. -/
def dist7 : Pt → Pt → ℚ := fun _ _ => 1

/-- Concrete options fixture for claim C7: an empty bucket table, so every
computed bucket index misses. -/
def opts7 : Options := ⟨some ("pz7"), none, [], "col7", 10⟩

/-- Concrete options fixture for claim C8. -/
def opts8 : Options := ⟨none, none, [], "color8", 0⟩

/-- Concrete sample fixture for claim C9: value 5 fails the filter
`|5| < 1`. -/
def p9 : Pt := ⟨[("e9", 5)], [], []⟩

/-- Concrete grid cell fixture for claim C9. -/
def g9 : Pt := ⟨[], [], []⟩

/-- Concrete distance fixture for claim C9. -/
def dist9 : Pt → Pt → ℚ := fun _ _ => 1

/-- Concrete options fixture for claim C9 with validity threshold 1. -/
def opts9 : Options := ⟨some ("e9"), none, [(⟨("c9")⟩ : BreakProp)], "col9", 1⟩

/-- Writing an attribute makes it readable back. -/
theorem getVal_setVal (l : List (String × α)) (k : String) (v : α) :
    getVal (setVal l k v) k = some v := by
  induction l with
  | nil => simp [setVal, getVal]
  | cons h t ih =>
    obtain ⟨k', v'⟩ := h
    by_cases hk : k' = k
    · simp [setVal, hk, getVal]
    · simp [setVal, hk, getVal, ih]

/-- Reading the numeric attribute just written by `setProp`. -/
theorem setProp_getVal (f : Pt) (k : String) (v : ℚ) :
    getVal (setProp f k v).props k = some v :=
  getVal_setVal f.props k v

/-- `setSProp` only touches the string attributes. -/
theorem setSProp_props (f : Pt) (k s : String) :
    (setSProp f k s).props = f.props := rfl

/-- `setProp` only touches the numeric attributes. -/
theorem setProp_sprops (f : Pt) (k : String) (v : ℚ) :
    (setProp f k v).sprops = f.sprops := rfl

/-- Every member of a successful `mapExcept` output comes from a successful
application of the step function to some input member. -/
theorem mapExcept_ok_mem {f : α → Except String β} :
    ∀ {l : List α} {out : List β}, mapExcept f l = .ok out →
      ∀ b ∈ out, ∃ a ∈ l, f a = .ok b := by
  intro l
  induction l with
  | nil =>
    intro out h b hb
    simp only [mapExcept, Except.ok.injEq] at h
    subst h
    simp at hb
  | cons a t ih =>
    intro out h b hb
    simp only [mapExcept] at h
    cases hfa : f a with
    | error e => rw [hfa] at h; cases h
    | ok b0 =>
      rw [hfa] at h
      cases hmt : mapExcept f t with
      | error e => rw [hmt] at h; cases h
      | ok bs =>
        rw [hmt] at h
        simp only [Except.ok.injEq] at h
        subst h
        rcases List.mem_cons.mp hb with rfl | hb2
        · exact ⟨a, by simp, hfa⟩
        · obtain ⟨x, hx, hfx⟩ := ih hmt b hb2
          exact ⟨x, by simp [hx], hfx⟩

/-- If every step succeeds with a result satisfying `Q`, `mapExcept`
succeeds, preserves length, and every output satisfies `Q`. -/
theorem mapExcept_all_ok {f : α → Except String β} {Q : β → Prop} :
    ∀ {l : List α}, (∀ a ∈ l, ∃ b, f a = .ok b ∧ Q b) →
      ∃ out, mapExcept f l = .ok out ∧ out.length = l.length ∧
        ∀ b ∈ out, Q b := by
  intro l
  induction l with
  | nil => intro _; exact ⟨[], rfl, rfl, by simp⟩
  | cons a t ih =>
    intro h
    obtain ⟨b, hfa, hQ⟩ := h a (by simp)
    obtain ⟨out, hmt, hlen, hall⟩ := ih fun x hx => h x (by simp [hx])
    refine ⟨b :: out, ?_, by simp [hlen], ?_⟩
    · simp [mapExcept, hfa, hmt]
    · intro c hc
      rcases List.mem_cons.mp hc with rfl | hc2
      · exact hQ
      · exact hall c hc2

/-- `mapExcept` only depends on the step function's values on the list. -/
theorem mapExcept_congr {f f' : α → Except String β} :
    ∀ {l : List α}, (∀ a ∈ l, f a = f' a) →
      mapExcept f l = mapExcept f' l := by
  intro l
  induction l with
  | nil => intro _; rfl
  | cons a t ih =>
    intro h
    simp only [mapExcept]
    rw [h a (by simp), ih fun x hx => h x (by simp [hx])]

theorem swSum_nil (W : ℤ) (d : Pt → ℚ) : swSum W d [] = 0 := rfl

theorem swSum_cons (W : ℤ) (d : Pt → ℚ) (q : Pt) (l : List Pt) :
    swSum W d (q :: l) = 1 / d q ^ W + swSum W d l := by
  simp [swSum]

theorem zwSum_nil (P : String) (W : ℤ) (d : Pt → ℚ) : zwSum P W d [] = 0 := rfl

theorem zwSum_cons (P : String) (W : ℤ) (d : Pt → ℚ) (q : Pt) (l : List Pt) :
    zwSum P W d (q :: l) =
      (1 / d q ^ W) * ((zValueOf P q).getD 0) + zwSum P W d l := by
  simp [zwSum]

/-- Weights of samples at positive distance are nonnegative in total. -/
theorem swSum_nonneg (W : ℤ) (d : Pt → ℚ) :
    ∀ l : List Pt, (∀ q ∈ l, 0 < d q) → 0 ≤ swSum W d l := by
  intro l
  induction l with
  | nil => intro _; simp [swSum_nil]
  | cons q t ih =>
    intro h
    rw [swSum_cons]
    have h1 : 0 < d q := h q (by simp)
    have h2 : (0:ℚ) < 1 / d q ^ W := by positivity
    have h3 := ih fun x hx => h x (by simp [hx])
    linarith

/-- Weights of a nonempty sample list at positive distance sum positively. -/
theorem swSum_pos (W : ℤ) (d : Pt → ℚ) :
    ∀ l : List Pt, l ≠ [] → (∀ q ∈ l, 0 < d q) → 0 < swSum W d l := by
  intro l
  cases l with
  | nil => intro h _; exact absurd rfl h
  | cons q t =>
    intro _ h
    rw [swSum_cons]
    have h1 : 0 < d q := h q (by simp)
    have h2 : (0:ℚ) < 1 / d q ^ W := by positivity
    have h3 := swSum_nonneg W d t fun x hx => h x (by simp [hx])
    linarith

/-- For all-identical sample values the weighted value sum factors. -/
theorem zwSum_const (P : String) (W : ℤ) (d : Pt → ℚ) (v : ℚ) :
    ∀ l : List Pt, (∀ q ∈ l, zValueOf P q = some v) →
      zwSum P W d l = v * swSum W d l := by
  intro l
  induction l with
  | nil => intro _; simp [zwSum_nil, swSum_nil]
  | cons q t ih =>
    intro h
    rw [zwSum_cons, swSum_cons, h q (by simp), ih fun x hx => h x (by simp [hx])]
    simp only [Option.getD_some]
    ring

/-- The unfiltered accumulation over samples that all resolve and sit at
positive distance adds the weighted sums to the incoming accumulator. -/
theorem accumPointsU_resolved (P : String) (W : ℤ) (d : Pt → ℚ) :
    ∀ (l : List Pt) (a b : ℚ),
      (∀ q ∈ l, (zValueOf P q).isSome ∧ 0 < d q) →
      accumPointsU P W d l (a, b) =
        .ok (a + zwSum P W d l, b + swSum W d l) := by
  intro l
  induction l with
  | nil => intro a b _; simp [accumPointsU, zwSum_nil, swSum_nil]
  | cons q t ih =>
    intro a b h
    obtain ⟨hs, hd⟩ := h q (by simp)
    obtain ⟨z, hz⟩ := Option.isSome_iff_exists.mp hs
    have hd0 : ¬ d q = 0 := ne_of_gt hd
    simp only [accumPointsU, hz, hd0, if_false]
    rw [ih _ _ fun x hx => h x (by simp [hx])]
    rw [zwSum_cons, swSum_cons, hz]
    simp only [Except.ok.injEq, Prod.mk.injEq, Option.getD_some]
    constructor <;> ring

/-- Splitting the unfiltered accumulation over an append. -/
theorem accumPointsU_append (P : String) (W : ℤ) (d : Pt → ℚ) :
    ∀ (l₁ l₂ : List Pt) (acc : ℚ × ℚ),
      accumPointsU P W d (l₁ ++ l₂) acc =
        match accumPointsU P W d l₁ acc with
        | .error e => .error e
        | .ok acc2 => accumPointsU P W d l₂ acc2 := by
  intro l₁
  induction l₁ with
  | nil => intro l₂ acc; simp [accumPointsU]
  | cons q t ih =>
    intro l₂ acc
    simp only [List.cons_append, accumPointsU]
    cases hz : zValueOf P q with
    | none => rfl
    | some z => exact ih l₂ _

/-- Splitting the unfiltered accumulation over an append, successful
prefix case. -/
theorem accumPointsU_append_ok (P : String) (W : ℤ) (d : Pt → ℚ)
    (l₁ l₂ : List Pt) (acc acc2 : ℚ × ℚ)
    (h : accumPointsU P W d l₁ acc = .ok acc2) :
    accumPointsU P W d (l₁ ++ l₂) acc = accumPointsU P W d l₂ acc2 := by
  rw [accumPointsU_append, h]

/-- A sample with no resolvable z-value makes the unfiltered accumulation
throw `MissingValueError`, whatever the accumulator. -/
theorem accumPointsU_missing (P : String) (W : ℤ) (d : Pt → ℚ) :
    ∀ (l : List Pt) (acc : ℚ × ℚ), (∃ q ∈ l, zValueOf P q = none) →
      accumPointsU P W d l acc = .error msgMissingValue := by
  intro l
  induction l with
  | nil => intro acc h; simp at h
  | cons q t ih =>
    intro acc h
    obtain ⟨x, hx, hnone⟩ := h
    rcases List.mem_cons.mp hx with rfl | hx2
    · simp [accumPointsU, hnone]
    · cases hz : zValueOf P q with
      | none => simp [accumPointsU, hz]
      | some z => simp only [accumPointsU, hz]; exact ih _ ⟨x, hx2, hnone⟩

/-- A sample with no resolvable z-value makes the filtered accumulation
throw `MissingValueError` as well: the resolution precedes the filter. -/
theorem accumPoints_missing (P : String) (W : ℤ) (valid : ℚ) (d : Pt → ℚ) :
    ∀ (l : List Pt) (acc : ℚ × ℚ), (∃ q ∈ l, zValueOf P q = none) →
      accumPoints P W valid d l acc = .error msgMissingValue := by
  intro l
  induction l with
  | nil => intro acc h; simp at h
  | cons q t ih =>
    intro acc h
    obtain ⟨x, hx, hnone⟩ := h
    rcases List.mem_cons.mp hx with rfl | hx2
    · simp [accumPoints, hnone]
    · cases hz : zValueOf P q with
      | none => simp [accumPoints, hz]
      | some z =>
        simp only [accumPoints, hz]
        by_cases hf : |z| < valid <;> simp only [hf, if_true, if_false] <;>
          exact ih _ ⟨x, hx2, hnone⟩

/-- A sample failing the validity filter is a no-op of the filtered
accumulation: dropping it from the list changes nothing. -/
theorem accumPoints_skip (P : String) (W : ℤ) (valid : ℚ) (d : Pt → ℚ)
    {p : Pt} {z : ℚ} (hz : zValueOf P p = some z) (hv : ¬ |z| < valid) :
    ∀ (pre post : List Pt) (acc : ℚ × ℚ),
      accumPoints P W valid d (pre ++ p :: post) acc =
        accumPoints P W valid d (pre ++ post) acc := by
  intro pre
  induction pre with
  | nil => intro post acc; simp [accumPoints, hz, hv]
  | cons q t ih =>
    intro post acc
    simp only [List.cons_append, accumPoints]
    cases hq : zValueOf P q with
    | none => rfl
    | some zq => by_cases hf : |zq| < valid <;> simp only [hf, if_true, if_false] <;> exact ih post _

/-- When every sample fails the validity filter the accumulator is left
untouched: `sw` (and `zw`) stay `0` when started at `0`. -/
theorem accumPoints_allskip (P : String) (W : ℤ) (valid : ℚ) (d : Pt → ℚ) :
    ∀ (l : List Pt) (acc : ℚ × ℚ),
      (∀ q ∈ l, (zValueOf P q).isSome ∧ ¬ |(zValueOf P q).getD 0| < valid) →
      accumPoints P W valid d l acc = .ok acc := by
  intro l
  induction l with
  | nil => intro acc _; rfl
  | cons q t ih =>
    intro acc h
    obtain ⟨hs, hv⟩ := h q (by simp)
    obtain ⟨z, hz⟩ := Option.isSome_iff_exists.mp hs
    rw [hz] at hv
    simp only [Option.getD_some] at hv
    simp only [accumPoints, hz, hv, if_false]
    exact ih _ fun x hx => h x (by simp [hx])

/-- The JS `|| 1` default never leaves a zero weight exponent. -/
theorem orDefaultW_ne_zero (o : Option ℤ) : orDefaultW o ≠ 0 := by
  cases o with
  | none => simp [orDefaultW]
  | some w => by_cases h : w = 0 <;> simp [orDefaultW, h]

/-- A successful `interpolate` cell records the accumulated `zw / sw`
under the property name, whether or not a color was attached. -/
theorem interpCell_value (P : String) (W : ℤ) (opts : Options) (d : Pt → ℚ)
    (points : List Pt) (g c : Pt) {zw sw : ℚ}
    (hacc : accumPointsU P W d points (0, 0) = .ok (zw, sw))
    (hc : interpCell P W opts d points g = .ok c) :
    getVal c.props P = some (zw / sw) := by
  simp only [interpCell, hacc] at hc
  cases hj : jsIndex opts.breakProperties (interpOrder (zw / sw)) with
  | none => rw [hj] at hc; cases hc
  | some bp =>
    rw [hj] at hc
    simp only [Except.ok.injEq] at hc
    subst hc
    rw [setSProp_props]
    exact setProp_getVal g P (zw / sw)

/-- Indexing into an empty bucket table always misses. -/
theorem jsIndex_nil (i : ℤ) : jsIndex ([] : List α) i = none := by
  unfold jsIndex
  split <;> simp

/-- Defaulting of the nonempty property name of the C2 fixture. -/
theorem opts2_P : orDefaultS (some ("e2")) defaultPropertyName = "e2" := by
  simp [orDefaultS]

/-- Defaulting of the nonempty property name of the C4 fixture. -/
theorem opts4_P : orDefaultS (some ("e4")) defaultPropertyName = "e4" := by
  simp [orDefaultS]

/-- Defaulting of the nonempty property name of the C5 fixture. -/
theorem opts5_P : orDefaultS (some ("e5")) defaultPropertyName = "e5" := by
  simp [orDefaultS]

/-- Defaulting of the nonempty property name of the C7 fixture. -/
theorem opts7_P : orDefaultS (some ("pz7")) defaultPropertyName = "pz7" := by
  simp [orDefaultS]

/-- Defaulting of the nonempty property name of the C9 fixture. -/
theorem opts9_P : orDefaultS (some ("e9")) defaultPropertyName = "e9" := by
  simp [orDefaultS]

/-- A successful filtered accumulation always yields a successful
`interpolate2` cell carrying `zw / sw`; the color assignment may or may
not happen but never faults. -/
theorem interp2Cell_ok (P : String) (W : ℤ) (opts : Options) (d : Pt → ℚ)
    (points : List Pt) (g : Pt) {zw sw : ℚ}
    (hacc : accumPoints P W opts.valid d points (0, 0) = .ok (zw, sw)) :
    ∃ c, interp2Cell P W opts d points g = .ok c ∧
      getVal c.props P = some (zw / sw) := by
  simp only [interp2Cell, hacc]
  cases hj : jsIndex opts.breakProperties (orderOf P (zw / sw)) with
  | none => exact ⟨_, rfl, setProp_getVal g P (zw / sw)⟩
  | some bp =>
    refine ⟨_, rfl, ?_⟩
    rw [setSProp_props]
    exact setProp_getVal g P (zw / sw)

/-- C6: for every interpolated value `v` the bucket index computed by
`interpolate`'s classification (idw.js:108-113) equals the one computed by
`interpolate2`'s `tem` scheme (idw.js:175-180), and both follow the rule
`15 - ceil(|v|/2)` for `v < 0` and `ceil(v/2) + 14` otherwise. -/
theorem C6_order_rules_agree :
    ∀ v : ℚ, interpOrder v = temOrder v ∧
      temOrder v = (if v < 0 then 15 - ⌈|v| / 2⌉ else ⌈v / 2⌉ + 14) :=
  fun _ => ⟨rfl, rfl⟩

/-- C3 counterexample: an interpolated value of exactly 969 under `prs`
yields bucket index `-1` (the `< 969` clamp is strict and
`ceil((969-969)/3) - 1 = -1`), not bucket 0 as claimed. -/
theorem C3_prs_969_counterexample : prsOrder 969 = -1 ∧ prsOrder 969 ≠ 0 := by
  norm_num [prsOrder]

/-- C3 amended: the literal edge values map as the code does — `prs` 969
gives bucket `-1` (a table miss), `prs` 1017.1 gives 16, `rhu` 100 gives 9,
`rhu` 100.1 gives 9, `pre1h` 0.2 gives 0 and `pre1h` 50.1 gives 8. -/
theorem C3_edge_buckets :
    prsOrder 969 = -1 ∧ prsOrder 1017.1 = 16 ∧ rhuOrder 100 = 9 ∧
    rhuOrder 100.1 = 9 ∧ pre1hOrder 0.2 = 0 ∧ pre1hOrder 50.1 = 8 := by
  refine ⟨?_, ?_, ?_, ?_, ?_, ?_⟩ <;> norm_num [prsOrder, rhuOrder, pre1hOrder]

/-- Every `winSMax` bucket index lies in `{0, 1, 3, 4, ..., 16}`. -/
theorem winSMaxOrder_mem (v : ℚ) : winSMaxOrder v ∈
    ([0, 1, 3, 4, 5, 6, 7, 8, 9, 10, 11, 12, 13, 14, 15, 16] : List ℤ) := by
  unfold winSMaxOrder
  by_cases h1 : v ≤ 2.5
  · simp [h1]
  by_cases h2 : v ≤ 5.5
  · simp [h1, h2]
  by_cases h3 : v ≤ 8.3
  · simp [h1, h2, h3]
  by_cases h4 : v ≤ 11.1
  · simp [h1, h2, h3, h4]
  by_cases h5 : v ≤ 13.9
  · simp [h1, h2, h3, h4, h5]
  by_cases h6 : v ≤ 17.4
  · simp [h1, h2, h3, h4, h5, h6]
  by_cases h7 : v ≤ 20.9
  · simp [h1, h2, h3, h4, h5, h6, h7]
  by_cases h8 : v ≤ 24.5
  · simp [h1, h2, h3, h4, h5, h6, h7, h8]
  by_cases h9 : v ≤ 29
  · simp [h1, h2, h3, h4, h5, h6, h7, h8, h9]
  by_cases h10 : v ≤ 33
  · simp [h1, h2, h3, h4, h5, h6, h7, h8, h9, h10]
  by_cases h11 : v ≤ 37
  · simp [h1, h2, h3, h4, h5, h6, h7, h8, h9, h10, h11]
  by_cases h12 : v ≤ 42
  · simp [h1, h2, h3, h4, h5, h6, h7, h8, h9, h10, h11, h12]
  by_cases h13 : v ≤ 47
  · simp [h1, h2, h3, h4, h5, h6, h7, h8, h9, h10, h11, h12, h13]
  by_cases h14 : v ≤ 51
  · simp [h1, h2, h3, h4, h5, h6, h7, h8, h9, h10, h11, h12, h13, h14]
  by_cases h15 : v ≤ 67
  · simp [h1, h2, h3, h4, h5, h6, h7, h8, h9, h10, h11, h12, h13, h14, h15]
  simp [h1, h2, h3, h4, h5, h6, h7, h8, h9, h10, h11, h12, h13, h14, h15]

/-- C10: the `winSMax` scheme never returns bucket 2 — the second
`v ≤ 5.5` test is unreachable — and its range is exactly
`{0, 1, 3, 4, ..., 16}`: every value lands in that set and every member of
the set is attained. -/
theorem C10_winSMax_skips_two :
    (∀ v : ℚ, winSMaxOrder v ≠ 2) ∧
    (∀ v : ℚ, winSMaxOrder v ∈
      ([0, 1, 3, 4, 5, 6, 7, 8, 9, 10, 11, 12, 13, 14, 15, 16] : List ℤ)) ∧
    (∃ v : ℚ, winSMaxOrder v = 0) ∧ (∃ v : ℚ, winSMaxOrder v = 1) ∧
    (∃ v : ℚ, winSMaxOrder v = 3) ∧ (∃ v : ℚ, winSMaxOrder v = 4) ∧
    (∃ v : ℚ, winSMaxOrder v = 5) ∧ (∃ v : ℚ, winSMaxOrder v = 6) ∧
    (∃ v : ℚ, winSMaxOrder v = 7) ∧ (∃ v : ℚ, winSMaxOrder v = 8) ∧
    (∃ v : ℚ, winSMaxOrder v = 9) ∧ (∃ v : ℚ, winSMaxOrder v = 10) ∧
    (∃ v : ℚ, winSMaxOrder v = 11) ∧ (∃ v : ℚ, winSMaxOrder v = 12) ∧
    (∃ v : ℚ, winSMaxOrder v = 13) ∧ (∃ v : ℚ, winSMaxOrder v = 14) ∧
    (∃ v : ℚ, winSMaxOrder v = 15) ∧ (∃ v : ℚ, winSMaxOrder v = 16) := by
  refine ⟨?_, winSMaxOrder_mem, ⟨0, by norm_num [winSMaxOrder]⟩, ⟨3, by norm_num [winSMaxOrder]⟩,
    ⟨6, by norm_num [winSMaxOrder]⟩, ⟨9, by norm_num [winSMaxOrder]⟩,
    ⟨12, by norm_num [winSMaxOrder]⟩, ⟨14, by norm_num [winSMaxOrder]⟩,
    ⟨18, by norm_num [winSMaxOrder]⟩, ⟨21, by norm_num [winSMaxOrder]⟩,
    ⟨25, by norm_num [winSMaxOrder]⟩, ⟨30, by norm_num [winSMaxOrder]⟩,
    ⟨34, by norm_num [winSMaxOrder]⟩, ⟨38, by norm_num [winSMaxOrder]⟩,
    ⟨43, by norm_num [winSMaxOrder]⟩, ⟨48, by norm_num [winSMaxOrder]⟩,
    ⟨52, by norm_num [winSMaxOrder]⟩, ⟨70, by norm_num [winSMaxOrder]⟩⟩
  intro v hv
  have hm := winSMaxOrder_mem v
  rw [hv] at hm
  exact absurd hm (by decide)

/-- C8 counterexample: `genSquareGrid` on an empty point collection does
not fail — with the modelled external `bbox` and `squareGrid` it returns
an (empty) grid collection. -/
theorem C8_empty_counterexample :
    genSquareGrid bboxModel squareGridModel (some []) 1 opts8 = .ok [] := rfl

/-- C8 amended: `genSquareGrid` performs no validation of its own — on an
empty point collection it returns the (empty) grid the external routines
produce over the degenerate bounding box, for every cell size and options;
only an absent collection faults, and that inside the external `bbox`. -/
theorem C8_no_validation :
    ∀ (cellSize : ℚ) (options : Options),
      genSquareGrid bboxModel squareGridModel (some []) cellSize options = .ok [] ∧
      genSquareGrid bboxModel squareGridModel none cellSize options =
        .error msgUnknownGeometry :=
  fun _ _ => ⟨rfl, rfl⟩

/-- C1: if every sample resolves to the same value `v` (the sample list
being nonempty) and every grid cell is at positive distance from every
sample, then every cell of a successful `interpolate` run carries
interpolated value exactly `v`, for every grid and weight exponent. -/
theorem C1_constant_samples (points grid : List Pt) (dist : Pt → Pt → ℚ)
    (opts : Options) (v : ℚ) (out : List Pt)
    (hne : points ≠ [])
    (hv : ∀ p ∈ points,
      zValueOf (orDefaultS opts.property defaultPropertyName) p = some v)
    (hd : ∀ g ∈ grid, ∀ p ∈ points, 0 < dist g p)
    (hok : interpolate points grid dist opts = .ok out) :
    ∀ c ∈ out,
      getVal c.props (orDefaultS opts.property defaultPropertyName) = some v := by
  intro c hc
  simp only [interpolate] at hok
  obtain ⟨g, hg, hcell⟩ := mapExcept_ok_mem hok c hc
  have hres : ∀ q ∈ points,
      (zValueOf (orDefaultS opts.property defaultPropertyName) q).isSome ∧
        0 < dist g q :=
    fun q hq => ⟨by rw [hv q hq]; rfl, hd g hg q hq⟩
  have hacc := accumPointsU_resolved (orDefaultS opts.property defaultPropertyName)
    (orDefaultW opts.weight) (dist g) points 0 0 hres
  have hval := interpCell_value (orDefaultS opts.property defaultPropertyName)
    (orDefaultW opts.weight) opts (dist g) points g c hacc hcell
  have hS : 0 < swSum (orDefaultW opts.weight) (dist g) points :=
    swSum_pos (orDefaultW opts.weight) (dist g) points hne fun q hq => hd g hg q hq
  have hzw := zwSum_const (orDefaultS opts.property defaultPropertyName)
    (orDefaultW opts.weight) (dist g) v points hv
  have hdiv : (0 + zwSum (orDefaultS opts.property defaultPropertyName)
        (orDefaultW opts.weight) (dist g) points) /
      (0 + swSum (orDefaultW opts.weight) (dist g) points) = v := by
    rw [zero_add, zero_add, hzw, mul_div_assoc, div_self (ne_of_gt hS), mul_one]
  rw [hval, hdiv]

/-- C1 witness: one sample of value 10 at distance 1 from the single grid
cell; the output cell carries exactly 10. -/
theorem C1_constant_samples_witness :
    getVal (Pt.mk [("elevation", 10)] [("color", "c1")] []).props
      (orDefaultS opts1.property defaultPropertyName) = some (10:ℚ) :=
  C1_constant_samples [pt1] [gd1] dist1 opts1 10 out1
    (by simp)
    (by intro p hp
        rw [List.mem_singleton] at hp
        subst hp
        norm_num [zValueOf, getVal, pt1, opts1, orDefaultS, defaultPropertyName])
    (by intro g hg p hp; norm_num [dist1])
    (by norm_num [interpolate, interpCell, mapExcept, accumPointsU, zValueOf,
        getVal, setProp, setSProp, setVal, jsIndex, interpOrder, orDefaultS,
        orDefaultW, defaultPropertyName, dist1, pt1, gd1, opts1, out1,
        List.replicate]; decide)
    (Pt.mk [("elevation", 10)] [("color", "c1")] []) (by simp [out1])

/-- C2: a sample whose resolved value fails `|z| < valid` contributes
nothing in `interpolate2`: the output on the sample list containing it
equals the output on the list with it removed, for every grid, distance
function and options. -/
theorem C2_filtered_sample_removal (pre post grid : List Pt) (p : Pt)
    (dist : Pt → Pt → ℚ) (opts : Options) (z : ℚ)
    (hz : zValueOf (orDefaultS opts.property defaultPropertyName) p = some z)
    (hv : ¬ |z| < opts.valid) :
    interpolate2 (pre ++ p :: post) grid dist opts =
      interpolate2 (pre ++ post) grid dist opts := by
  simp only [interpolate2]
  apply mapExcept_congr
  intro g _
  simp only [interp2Cell]
  rw [accumPoints_skip (orDefaultS opts.property defaultPropertyName)
    (orDefaultW opts.weight) opts.valid (dist g) hz hv pre post (0, 0)]

/-- C2 witness: removing the sample of value 100 (threshold 10) leaves the
concrete `interpolate2` output unchanged. -/
theorem C2_filtered_sample_removal_witness :
    interpolate2 ([ptGood2] ++ ptBad2 :: []) [gd2] dist2 opts2 =
      interpolate2 ([ptGood2] ++ []) [gd2] dist2 opts2 :=
  C2_filtered_sample_removal [ptGood2] [] [gd2] ptBad2 dist2 opts2 100 rfl
    (by norm_num [opts2])

/-- C4 counterexample: with sample `p4a` (value 5) exactly coincident with
the only grid cell and `p4b` (value 7) at distance 1, `interpolate`
returns 12 for that cell, not the coincident sample's 5.  (In `ℚ` the
coincident weight `1 / 0 ^ 1` is the junk value 0; in JS floats it is
`Infinity`, making the cell `NaN` — under neither semantics is it 5.) -/
theorem C4_coincident_counterexample :
    dist4 g4 p4a = 0 ∧ dist4 g4 p4b = 1 ∧
    interpolate [p4a, p4b] [g4] dist4 opts4 = .ok out4 ∧ (12 : ℚ) ≠ 5 := by
  refine ⟨rfl, rfl, ?_, by norm_num⟩
  norm_num [interpolate, interpCell, mapExcept, accumPointsU, zValueOf, getVal,
    setProp, setSProp, setVal, jsIndex, interpOrder, opts4_P, orDefaultW,
    dist4, p4a, p4b, g4, opts4, out4, List.replicate]; decide

/-- C4 amended: processing the coincident sample overwrites the running
`zw` accumulator with its value `v` (discarding the earlier samples'
contributions) and, in exact arithmetic, adds nothing to `sw`; the cell's
final interpolated value is therefore
`(v + zwSum post) / (swSum pre + swSum post)`, which in general differs
from `v` (see the counterexample), rather than `v` itself. -/
theorem C4_coincident_amended (pre post : List Pt) (p g : Pt)
    (dist : Pt → Pt → ℚ) (opts : Options) (v : ℚ) (out : List Pt)
    (hp : zValueOf (orDefaultS opts.property defaultPropertyName) p = some v)
    (hd0 : dist g p = 0)
    (hres : ∀ q ∈ pre ++ post,
      (zValueOf (orDefaultS opts.property defaultPropertyName) q).isSome ∧
        0 < dist g q)
    (hok : interpolate (pre ++ p :: post) [g] dist opts = .ok out) :
    ∀ c ∈ out,
      getVal c.props (orDefaultS opts.property defaultPropertyName) =
        some ((v + zwSum (orDefaultS opts.property defaultPropertyName)
            (orDefaultW opts.weight) (dist g) post) /
          (swSum (orDefaultW opts.weight) (dist g) pre +
            swSum (orDefaultW opts.weight) (dist g) post)) := by
  intro c hc
  simp only [interpolate] at hok
  obtain ⟨g', hg', hcell⟩ := mapExcept_ok_mem hok c hc
  rw [(by simpa using hg' : g' = g)] at hcell
  have hpre : ∀ q ∈ pre,
      (zValueOf (orDefaultS opts.property defaultPropertyName) q).isSome ∧
        0 < dist g q :=
    fun q hq => hres q (by simp [hq])
  have hpost : ∀ q ∈ post,
      (zValueOf (orDefaultS opts.property defaultPropertyName) q).isSome ∧
        0 < dist g q :=
    fun q hq => hres q (by simp [hq])
  have h1 : accumPointsU (orDefaultS opts.property defaultPropertyName)
      (orDefaultW opts.weight) (dist g) pre (0, 0) =
      .ok (zwSum (orDefaultS opts.property defaultPropertyName)
        (orDefaultW opts.weight) (dist g) pre,
        swSum (orDefaultW opts.weight) (dist g) pre) := by
    have h0 := accumPointsU_resolved (orDefaultS opts.property defaultPropertyName)
      (orDefaultW opts.weight) (dist g) pre 0 0 hpre
    simpa using h0
  have hW : orDefaultW opts.weight ≠ 0 := orDefaultW_ne_zero opts.weight
  have hstep : accumPointsU (orDefaultS opts.property defaultPropertyName)
      (orDefaultW opts.weight) (dist g) (p :: post)
      (zwSum (orDefaultS opts.property defaultPropertyName)
        (orDefaultW opts.weight) (dist g) pre,
        swSum (orDefaultW opts.weight) (dist g) pre) =
      .ok (v + zwSum (orDefaultS opts.property defaultPropertyName)
          (orDefaultW opts.weight) (dist g) post,
        swSum (orDefaultW opts.weight) (dist g) pre +
          swSum (orDefaultW opts.weight) (dist g) post) := by
    simp only [accumPointsU, hp, hd0]
    rw [zero_zpow _ hW]
    simp only [div_zero, ite_self, zero_mul, add_zero, if_pos]
    rw [accumPointsU_resolved (orDefaultS opts.property defaultPropertyName)
      (orDefaultW opts.weight) (dist g) post v
      (swSum (orDefaultW opts.weight) (dist g) pre) hpost]
  have hacc := accumPointsU_append_ok (orDefaultS opts.property defaultPropertyName)
    (orDefaultW opts.weight) (dist g) pre (p :: post) (0, 0) _ h1
  rw [hstep] at hacc
  exact interpCell_value (orDefaultS opts.property defaultPropertyName)
    (orDefaultW opts.weight) opts (dist g) (pre ++ p :: post) g c hacc hcell

/-- C4 amended witness at the concrete fixture: no earlier samples, the
coincident sample of value 5, one later sample of value 7 at distance 1;
the cell carries `(5 + 7) / (0 + 1) = 12`. -/
theorem C4_coincident_amended_witness :
    getVal (Pt.mk [("e4", 12)] [("col4", "c4")] []).props
      (orDefaultS opts4.property defaultPropertyName) =
      some (((5:ℚ) + zwSum (orDefaultS opts4.property defaultPropertyName)
          (orDefaultW opts4.weight) (dist4 g4) [p4b]) /
        (swSum (orDefaultW opts4.weight) (dist4 g4) [] +
          swSum (orDefaultW opts4.weight) (dist4 g4) [p4b])) :=
  C4_coincident_amended [] [p4b] p4a g4 dist4 opts4 5 out4 rfl rfl
    (by intro q hq
        simp only [List.nil_append, List.mem_singleton] at hq
        subst hq
        constructor
        · rfl
        · norm_num [dist4, p4b, g4, getVal])
    (by norm_num [interpolate, interpCell, mapExcept, accumPointsU, zValueOf,
        getVal, setProp, setSProp, setVal, jsIndex, interpOrder, opts4_P,
        orDefaultW, dist4, p4a, p4b, g4, opts4, out4,
        List.replicate]; decide)
    (Pt.mk [("e4", 12)] [("col4", "c4")] []) (by simp [out4])

/-- C5 counterexample: with an empty grid neither function raises
`MissingValueError` even though the sample lacks both the named property
and a third coordinate — the per-cell loop never runs and an (empty)
output collection is produced instead of an error. -/
theorem C5_missing_value_counterexample :
    zValueOf (orDefaultS opts5.property defaultPropertyName) pBad5 = none ∧
    interpolate [pBad5] [] dist5 opts5 = .ok [] ∧
    interpolate2 [pBad5] [] dist5 opts5 = .ok [] :=
  ⟨rfl, rfl, rfl⟩

/-- C5 amended: provided the grid has at least one cell, an input sample
with neither the named property nor a third coordinate makes both
`interpolate` and `interpolate2` abort with `MissingValueError` and
produce no output collection. -/
theorem C5_missing_value_amended (points grid : List Pt) (g : Pt)
    (dist : Pt → Pt → ℚ) (opts : Options)
    (hbad : ∃ q ∈ points,
      zValueOf (orDefaultS opts.property defaultPropertyName) q = none) :
    interpolate points (g :: grid) dist opts = .error msgMissingValue ∧
    interpolate2 points (g :: grid) dist opts = .error msgMissingValue := by
  constructor
  · have hU := accumPointsU_missing (orDefaultS opts.property defaultPropertyName)
      (orDefaultW opts.weight) (dist g) points (0, 0) hbad
    have hcell : interpCell (orDefaultS opts.property defaultPropertyName)
        (orDefaultW opts.weight) opts (dist g) points g = .error msgMissingValue := by
      simp only [interpCell, hU]
    simp only [interpolate, mapExcept, hcell]
  · have hF := accumPoints_missing (orDefaultS opts.property defaultPropertyName)
      (orDefaultW opts.weight) opts.valid (dist g) points (0, 0) hbad
    have hcell : interp2Cell (orDefaultS opts.property defaultPropertyName)
        (orDefaultW opts.weight) opts (dist g) points g = .error msgMissingValue := by
      simp only [interp2Cell, hF]
    simp only [interpolate2, mapExcept, hcell]

/-- C5 amended witness: the value-less sample on a one-cell grid makes
both entry points throw `MissingValueError`. -/
theorem C5_missing_value_amended_witness :
    interpolate [pBad5] [gd5] dist5 opts5 = .error msgMissingValue ∧
    interpolate2 [pBad5] [gd5] dist5 opts5 = .error msgMissingValue :=
  C5_missing_value_amended [pBad5] [] gd5 dist5 opts5 ⟨pBad5, by simp, rfl⟩

/-- C7: in the bucket-table-miss situation, `interpolate2` completes,
still writes the interpolated value to the cell and leaves the string
(color) attributes untouched, while `interpolate` aborts with the
undefined-property fault. -/
theorem C7_bucket_miss_asymmetry (points : List Pt) (g : Pt)
    (dist : Pt → Pt → ℚ) (opts : Options) (zw sw zw2 sw2 : ℚ)
    (hU : accumPointsU (orDefaultS opts.property defaultPropertyName)
      (orDefaultW opts.weight) (dist g) points (0, 0) = .ok (zw, sw))
    (hmU : jsIndex opts.breakProperties (interpOrder (zw / sw)) = none)
    (hF : accumPoints (orDefaultS opts.property defaultPropertyName)
      (orDefaultW opts.weight) opts.valid (dist g) points (0, 0) = .ok (zw2, sw2))
    (hmF : jsIndex opts.breakProperties
      (orderOf (orDefaultS opts.property defaultPropertyName) (zw2 / sw2)) = none) :
    interpolate points [g] dist opts = .error msgBadFillcolor ∧
    interpolate2 points [g] dist opts =
      .ok [setProp g (orDefaultS opts.property defaultPropertyName) (zw2 / sw2)] ∧
    (setProp g (orDefaultS opts.property defaultPropertyName) (zw2 / sw2)).sprops
      = g.sprops := by
  refine ⟨?_, ?_, rfl⟩
  · have hcell : interpCell (orDefaultS opts.property defaultPropertyName)
        (orDefaultW opts.weight) opts (dist g) points g = .error msgBadFillcolor := by
      simp only [interpCell, hU, hmU]
    simp only [interpolate, mapExcept, hcell]
  · have hcell : interp2Cell (orDefaultS opts.property defaultPropertyName)
        (orDefaultW opts.weight) opts (dist g) points g =
        .ok (setProp g (orDefaultS opts.property defaultPropertyName) (zw2 / sw2)) := by
      simp only [interp2Cell, hF, hmF]
    simp only [interpolate2, mapExcept, hcell]

/-- C7 witness: the empty bucket table misses for every index; the
concrete run faults in `interpolate` and succeeds without color in
`interpolate2`. -/
theorem C7_bucket_miss_asymmetry_witness :
    interpolate [p7] [g7] dist7 opts7 = .error msgBadFillcolor ∧
    interpolate2 [p7] [g7] dist7 opts7 =
      .ok [setProp g7 (orDefaultS opts7.property defaultPropertyName) ((5:ℚ) / 1)] ∧
    (setProp g7 (orDefaultS opts7.property defaultPropertyName) ((5:ℚ) / 1)).sprops
      = g7.sprops :=
  C7_bucket_miss_asymmetry [p7] g7 dist7 opts7 5 1 5 1
    (by norm_num [accumPointsU, zValueOf, getVal, p7, opts7, dist7,
        opts7_P, orDefaultW])
    (by simp [opts7, jsIndex_nil])
    (by norm_num [accumPoints, zValueOf, getVal, p7, opts7, dist7,
        opts7_P, orDefaultW])
    (by simp [opts7, jsIndex_nil])

/-- C9: when every sample fails the validity filter the accumulator stays
`(0, 0)` for every cell — so `sw` remains 0 — and `interpolate2` still
emits one output cell per grid cell, carrying the unguarded division
`0 / 0` (the junk value 0 in `ℚ`; `NaN` in JS floats) as its
interpolated value. -/
theorem C9_all_filtered_cells_emitted (points grid : List Pt)
    (dist : Pt → Pt → ℚ) (opts : Options)
    (hall : ∀ q ∈ points,
      (zValueOf (orDefaultS opts.property defaultPropertyName) q).isSome ∧
      ¬ |(zValueOf (orDefaultS opts.property defaultPropertyName) q).getD 0| <
        opts.valid) :
    (∀ d : Pt → ℚ, accumPoints (orDefaultS opts.property defaultPropertyName)
      (orDefaultW opts.weight) opts.valid d points (0, 0) = .ok (0, 0)) ∧
    ∃ out, interpolate2 points grid dist opts = .ok out ∧
      out.length = grid.length ∧
      ∀ c ∈ out, getVal c.props (orDefaultS opts.property defaultPropertyName) =
        some ((0 : ℚ) / 0) := by
  have hskip : ∀ d : Pt → ℚ,
      accumPoints (orDefaultS opts.property defaultPropertyName)
        (orDefaultW opts.weight) opts.valid d points (0, 0) = .ok (0, 0) :=
    fun d => accumPoints_allskip (orDefaultS opts.property defaultPropertyName)
      (orDefaultW opts.weight) opts.valid d points (0, 0) hall
  refine ⟨hskip, ?_⟩
  simp only [interpolate2]
  exact mapExcept_all_ok fun g _ =>
    interp2Cell_ok (orDefaultS opts.property defaultPropertyName)
      (orDefaultW opts.weight) opts (dist g) points g (hskip (dist g))

/-- C9 witness: one sample of value 5 against threshold 1 (filtered out),
one grid cell; the cell is still emitted with value `0 / 0`. -/
theorem C9_all_filtered_cells_emitted_witness :
    (∀ d : Pt → ℚ, accumPoints (orDefaultS opts9.property defaultPropertyName)
      (orDefaultW opts9.weight) opts9.valid d [p9] (0, 0) = .ok (0, 0)) ∧
    ∃ out, interpolate2 [p9] [g9] dist9 opts9 = .ok out ∧
      out.length = ([g9] : List Pt).length ∧
      ∀ c ∈ out, getVal c.props (orDefaultS opts9.property defaultPropertyName) =
        some ((0 : ℚ) / 0) :=
  C9_all_filtered_cells_emitted [p9] [g9] dist9 opts9
    (by intro q hq
        rw [List.mem_singleton] at hq
        subst hq
        constructor
        · rfl
        · norm_num [zValueOf, getVal, p9, opts9, opts9_P])

end IDW
